import Mathlib

/-!
# Verification of the `oxyde_sorting` GPU counting-sort engine

This file gives a shallow embedding of the host-side engine in
`src/lib.rs` (`GpuCountingSortModule`: construction, validation, level
planning, pipeline building and command recording) together with a model of
the counting-sort invocation semantics, and proves the specification claims
about them.

Machine integers: all the Rust `u32`/`u64` arithmetic involved is modelled
on `Nat`; the two `as u32` casts in `GpuCountingSortModule::new` are made
explicit with `% 2^32`.  Division by zero and the non-terminating loop of
`scan_then_propagate_level_count` (for a work-group size of 1) are modelled
as explicit outcomes of `GpuCountingSortModule.new`.
-/

namespace OxydeSorting

/-- The wgpu buffer-usage flags that `src/lib.rs` mentions
(`STORAGE`, `COPY_DST`, `COPY_SRC`). -/
inductive UsageFlag where
  | STORAGE
  | COPY_DST
  | COPY_SRC
deriving DecidableEq, Repr

/-- The usage set of a buffer, abstracted to the three flags the crate uses. -/
structure BufferUsages where
  storage : Bool
  copy_dst : Bool
  copy_src : Bool
deriving DecidableEq, Repr

/-- A `wgpu::Buffer` as the engine sees it: a byte size and a usage set. -/
structure Buffer where
  size : Nat
  usage : BufferUsages
deriving DecidableEq, Repr

/-- Tail-recursive loop of `scan_then_propagate_level_count` (src/lib.rs:66-72):
`count = 1; temp = size / wg; while temp > 0 { count += 1; temp /= wg }`.
The extra `workgroup_size ≤ 1` guard only serves termination of the Lean
definition: the Rust loop never terminates when `workgroup_size = 1` and
`temp ≠ 0`, and panics earlier (division by zero) when `workgroup_size = 0`;
both cases are intercepted in `GpuCountingSortModule.new` below and never
reach this guard. -/
def levelCountLoop (workgroup_size : Nat) (temp_size count : Nat) : Nat :=
  if h : temp_size = 0 ∨ workgroup_size ≤ 1 then count
  else levelCountLoop workgroup_size (temp_size / workgroup_size) (count + 1)
termination_by temp_size
decreasing_by
  push_neg at h
  exact Nat.div_lt_self (Nat.pos_of_ne_zero h.1) (by omega)

/-- Embeds `scan_then_propagate_level_count` (src/lib.rs:65-73): the number of
scan-then-propagate levels required for a count buffer of `size` elements and
the given work-group size. -/
def scan_then_propagate_level_count (size workgroup_size : Nat) : Nat :=
  levelCountLoop workgroup_size (size / workgroup_size) 1

/-- One step of the ceiling-division iterator of `workgroup_size_per_level`
(src/lib.rs:78): `x ↦ (x + workgroup_size - 1) / workgroup_size`. -/
def ceilDivStep (workgroup_size x : Nat) : Nat :=
  (x + workgroup_size - 1) / workgroup_size

/-- `iterCeilDiv size w k` is the `k`-th element of the successor sequence
`size, ⌈size/w⌉, ⌈⌈size/w⌉/w⌉, …` used by `workgroup_size_per_level`. -/
def iterCeilDiv (size workgroup_size : Nat) : Nat → Nat
  | 0 => size
  | k + 1 => ceilDivStep workgroup_size (iterCeilDiv size workgroup_size k)

/-- Embeds `workgroup_size_per_level` (src/lib.rs:75-82): the successor
sequence starting at `size`, taking `level + 1` elements and skipping the
first, i.e. the array lengths of levels `1, …, level`. -/
def workgroup_size_per_level (size workgroup_size level : Nat) : List Nat :=
  (List.range level).map (fun l => iterCeilDiv size workgroup_size (l + 1))

/-- The four logical compute pipelines; scan and propagate are specialized
per level (the `SCAN_LEVEL` shader define baked in at src/lib.rs:175). -/
inductive PipelineKind where
  | counting
  | workgroup_scan (level : Nat)
  | workgroup_propagate (level : Nat)
  | sorting
deriving DecidableEq, Repr

/-- The engine state built by `GpuCountingSortModule::new` (src/lib.rs:20-36):
sizes, the engine-owned sorting-id buffer, the three bind groups (modelled by
the lists of buffers they bind, in binding order) and the compiled pipelines. -/
structure GpuCountingSortModule where
  workgroup_size : Nat
  value_size : Nat
  count_size : Nat
  sorting_id_buffer : Buffer
  counting_bind_group : List Buffer
  sorting_bind_group : List Buffer
  count_buffer_bind_group : List Buffer
  counting_pipeline : PipelineKind
  workgroup_scan_pipelines : List PipelineKind
  workgroup_propagate_pipelines : List PipelineKind
  sorting_pipeline : PipelineKind
deriving DecidableEq, Repr

/-- Outcome of `GpuCountingSortModule::new`.  The two error constructors
mirror `CountingSortingError` (src/lib.rs:39-42); `panicDivByZero` models the
Rust `u32` division-by-zero panic reached when `workgroup_size = 0`, and
`diverge` models the non-termination of the level-count loop when
`workgroup_size = 1` and the count buffer is non-empty. -/
inductive NewResult where
  | ok (m : GpuCountingSortModule)
  | errMissingBufferUsage (usage : UsageFlag) (buffer_name : String)
  | errToManyLevels (size workgroup_size levels : Nat)
  | panicDivByZero
  | diverge
deriving DecidableEq, Repr

/-- Is the construction outcome a successfully built engine? -/
def NewResult.isOk : NewResult → Bool
  | .ok _ => true
  | _ => false

/-- Embeds `GpuCountingSortModule::new` (src/lib.rs:85-258).  The usage
checks, the `u64 → u32` casts on the element counts, the level-count check
and the construction of the sorting-id buffer, bind groups and pipelines all
follow the source line by line; GPU object creation (`device.create_*`)
always succeeds and is represented by the recorded data. -/
def GpuCountingSortModule.new (values_buffer count_buffer : Buffer)
    (workgroup_size : Nat) : NewResult :=
  if ¬ count_buffer.usage.copy_dst then
    .errMissingBufferUsage .COPY_DST "Count buffer"
  else if ¬ values_buffer.usage.storage then
    .errMissingBufferUsage .STORAGE "Values buffer"
  else if ¬ count_buffer.usage.storage then
    .errMissingBufferUsage .STORAGE "Count buffer"
  else
    let count_size : Nat := count_buffer.size / 4 % 2 ^ 32
    let value_size : Nat := values_buffer.size / 4 % 2 ^ 32
    if workgroup_size = 0 then
      .panicDivByZero
    else if workgroup_size = 1 ∧ count_size ≠ 0 then
      .diverge
    else
      let levels := scan_then_propagate_level_count count_size workgroup_size
      if levels > 4 then
        .errToManyLevels count_size workgroup_size levels
      else
        let sorting_id_buffer : Buffer :=
          { size := values_buffer.size,
            usage := { storage := true, copy_dst := false, copy_src := true } }
        .ok
          { workgroup_size := workgroup_size,
            value_size := value_size,
            count_size := count_size,
            sorting_id_buffer := sorting_id_buffer,
            counting_bind_group := [values_buffer, count_buffer],
            sorting_bind_group := [sorting_id_buffer],
            count_buffer_bind_group := [count_buffer],
            counting_pipeline := .counting,
            workgroup_scan_pipelines :=
              (List.range levels).map PipelineKind.workgroup_scan,
            workgroup_propagate_pipelines :=
              (List.range (levels - 1)).map PipelineKind.workgroup_propagate,
            sorting_pipeline := .sorting }

/-- A command recorded into a `wgpu::CommandEncoder`, at the granularity
`dispatch_work` uses.  `submitBatch`/`waitBatch` model the queue operations
(`queue.submit`, `device.poll`) that callers perform; `dispatch_work` itself
never records them. -/
inductive Cmd where
  | clearBuffer (buffer : Buffer)
  | beginPass (label : String)
  | setPipeline (pipeline : PipelineKind)
  | setBindGroup (slot : Nat) (group : List Buffer)
  | dispatchWorkgroups (x y z : Nat)
  | pushDebugGroup (label : String)
  | popDebugGroup
  | submitBatch
  | waitBatch
deriving DecidableEq, Repr

/-- The per-pipeline block of commands recorded for one scan or propagate
level inside the scan pass (src/lib.rs:291-305): debug group, pipeline, one
dispatch. -/
def levelBlock (pr : PipelineKind × Nat) : List Cmd :=
  [.pushDebugGroup "level", .setPipeline pr.1, .dispatchWorkgroups pr.2 1 1,
   .popDebugGroup]

/-- Embeds `GpuCountingSortModule::dispatch_work` (src/lib.rs:263-320): the
commands appended to the encoder.  The `&mut wgpu::CommandEncoder` is
modelled as a command list that the call extends; debug-group labels are
abbreviated (they carry no behaviour). -/
def GpuCountingSortModule.dispatch_work (m : GpuCountingSortModule)
    (encoder : List Cmd) (count_buffer : Buffer) : List Cmd :=
  let value_workgroup_size_x :=
    (m.value_size + m.workgroup_size - 1) / m.workgroup_size
  let scan_workgroup_sizes :=
    workgroup_size_per_level m.count_size m.workgroup_size
      m.workgroup_scan_pipelines.length
  encoder
    ++ [.pushDebugGroup "Counting Sort", .clearBuffer count_buffer]
    ++ [.beginPass "Compting Pass", .setPipeline m.counting_pipeline,
        .setBindGroup 0 m.counting_bind_group,
        .dispatchWorkgroups value_workgroup_size_x 1 1]
    ++ [.beginPass "Scan Pass", .setBindGroup 0 m.count_buffer_bind_group]
    ++ (m.workgroup_scan_pipelines.zip scan_workgroup_sizes).flatMap levelBlock
    ++ (m.workgroup_propagate_pipelines.reverse.zip
          (scan_workgroup_sizes.reverse.drop 1)).flatMap levelBlock
    ++ [.beginPass "Sort Pass", .setPipeline m.sorting_pipeline,
        .setBindGroup 0 m.counting_bind_group,
        .setBindGroup 1 m.sorting_bind_group,
        .dispatchWorkgroups value_workgroup_size_x 1 1]
    ++ [.popDebugGroup]

/-- What a recorded command batch does, at stage granularity: buffer clears
and pipeline executions (with the pipeline and bind groups current at the
dispatch, and the work-group grid). -/
inductive Event where
  | cleared (buffer : Buffer)
  | ran (pipeline : Option PipelineKind) (bg0 bg1 : Option (List Buffer))
        (x y z : Nat)
deriving DecidableEq, Repr

/-- Replay of a command list into its stage events, threading the encoder
state (current pipeline, bind-group slots 0 and 1; a `beginPass` resets
them, as a fresh `wgpu` compute pass does). -/
def runEvents : List Cmd → Option PipelineKind → Option (List Buffer) →
    Option (List Buffer) → List Event
  | [], _, _, _ => []
  | .clearBuffer b :: rest, cur, b0, b1 =>
      .cleared b :: runEvents rest cur b0 b1
  | .beginPass _ :: rest, _, _, _ => runEvents rest none none none
  | .setPipeline p :: rest, _, b0, b1 => runEvents rest (some p) b0 b1
  | .setBindGroup 0 g :: rest, cur, _, b1 => runEvents rest cur (some g) b1
  | .setBindGroup _ g :: rest, cur, b0, _ => runEvents rest cur b0 (some g)
  | .dispatchWorkgroups x y z :: rest, cur, b0, b1 =>
      .ran cur b0 b1 x y z :: runEvents rest cur b0 b1
  | .pushDebugGroup _ :: rest, cur, b0, b1 => runEvents rest cur b0 b1
  | .popDebugGroup :: rest, cur, b0, b1 => runEvents rest cur b0 b1
  | .submitBatch :: rest, cur, b0, b1 => runEvents rest cur b0 b1
  | .waitBatch :: rest, cur, b0, b1 => runEvents rest cur b0 b1

/-- Stage events of a command list, starting from a fresh encoder state. -/
def events (cmds : List Cmd) : List Event := runEvents cmds none none none

/-- Buffers a command refers to. -/
def cmdBuffers : Cmd → List Buffer
  | .clearBuffer b => [b]
  | .setBindGroup _ g => g
  | _ => []

/-- The commands of one `dispatch_work` call after the initial debug group
and count-buffer clear; this tail only refers to the state captured in the
module at construction time. -/
def dispatchTail (m : GpuCountingSortModule) : List Cmd :=
  let value_workgroup_size_x :=
    (m.value_size + m.workgroup_size - 1) / m.workgroup_size
  let scan_workgroup_sizes :=
    workgroup_size_per_level m.count_size m.workgroup_size
      m.workgroup_scan_pipelines.length
  [Cmd.beginPass "Compting Pass", .setPipeline m.counting_pipeline,
   .setBindGroup 0 m.counting_bind_group,
   .dispatchWorkgroups value_workgroup_size_x 1 1,
   .beginPass "Scan Pass", .setBindGroup 0 m.count_buffer_bind_group]
  ++ (m.workgroup_scan_pipelines.zip scan_workgroup_sizes).flatMap levelBlock
  ++ (m.workgroup_propagate_pipelines.reverse.zip
        (scan_workgroup_sizes.reverse.drop 1)).flatMap levelBlock
  ++ [Cmd.beginPass "Sort Pass", .setPipeline m.sorting_pipeline,
      .setBindGroup 0 m.counting_bind_group,
      .setBindGroup 1 m.sorting_bind_group,
      .dispatchWorkgroups value_workgroup_size_x 1 1, .popDebugGroup]

/-- The stage-event sequence one `dispatch_work` call of a constructed
engine records: the clear of the argument buffer, then Count, then the scan
levels bottom-up, then the propagate levels top-down (all but the last
level), then Scatter — with bind groups and work-group counts spelled out
from the construction inputs (`vb`, `cb`, width `w`). -/
def StageOrderSpec (vb cb : Buffer) (w : Nat)
    (m : GpuCountingSortModule) (cb2 : Buffer) : Prop :=
  events (m.dispatch_work [] cb2)
    = Event.cleared cb2
      :: Event.ran (some .counting) (some [vb, cb]) none
           ((vb.size / 4 % 2 ^ 32 + w - 1) / w) 1 1
      :: ((List.range (scan_then_propagate_level_count (cb.size / 4 % 2 ^ 32)
              w)).map
            (fun l => Event.ran (some (.workgroup_scan l)) (some [cb]) none
              (iterCeilDiv (cb.size / 4 % 2 ^ 32) w (l + 1)) 1 1)
          ++ ((List.range (scan_then_propagate_level_count
                  (cb.size / 4 % 2 ^ 32) w - 1)).reverse.map
               (fun l => Event.ran (some (.workgroup_propagate l)) (some [cb])
                 none (iterCeilDiv (cb.size / 4 % 2 ^ 32) w (l + 1)) 1 1)
          ++ [Event.ran (some .sorting) (some [vb, cb])
                (some [⟨vb.size, true, false, true⟩])
                ((vb.size / 4 % 2 ^ 32 + w - 1) / w) 1 1]))

/-- Conclusion of claim C5: `dispatch_work` only appends to the encoder,
records no queue submission or wait, and its recorded stages follow the
claimed order. -/
def DispatchSpec (vb cb : Buffer) (w : Nat)
    (m : GpuCountingSortModule) (enc : List Cmd) (cb2 : Buffer) : Prop :=
  m.dispatch_work enc cb2 = enc ++ m.dispatch_work [] cb2 ∧
  Cmd.submitBatch ∉ m.dispatch_work [] cb2 ∧
  Cmd.waitBatch ∉ m.dispatch_work [] cb2 ∧
  StageOrderSpec vb cb w m cb2

/-- Conclusion of claim C6: the constructed pipeline lists are one
specialized scan pipeline per level and one propagate pipeline per level
except the last, and each scan/propagate stage of level `L` is dispatched
with `⌈B / w^(L+1)⌉` work-groups — which coincides with the level-`(L+1)`
array length obtained by iterated ceiling division. -/
def KernelSetSpec (count_buffer : Buffer) (workgroup_size : Nat)
    (m : GpuCountingSortModule) : Prop :=
  m.workgroup_scan_pipelines
      = (List.range (scan_then_propagate_level_count
          (count_buffer.size / 4 % 2 ^ 32) workgroup_size)).map
          PipelineKind.workgroup_scan ∧
  m.workgroup_propagate_pipelines
      = (List.range (scan_then_propagate_level_count
          (count_buffer.size / 4 % 2 ^ 32) workgroup_size - 1)).map
          PipelineKind.workgroup_propagate ∧
  m.workgroup_scan_pipelines.length
      = scan_then_propagate_level_count (count_buffer.size / 4 % 2 ^ 32)
          workgroup_size ∧
  m.workgroup_propagate_pipelines.length
      = scan_then_propagate_level_count (count_buffer.size / 4 % 2 ^ 32)
          workgroup_size - 1 ∧
  (∀ k, iterCeilDiv (count_buffer.size / 4 % 2 ^ 32) workgroup_size (k + 1)
      = (count_buffer.size / 4 % 2 ^ 32 + workgroup_size ^ (k + 1) - 1)
          / workgroup_size ^ (k + 1)) ∧
  ∀ (cb2 : Buffer) (L : Nat),
    (L < scan_then_propagate_level_count (count_buffer.size / 4 % 2 ^ 32)
        workgroup_size →
      Event.ran (some (.workgroup_scan L)) (some [count_buffer]) none
          ((count_buffer.size / 4 % 2 ^ 32 + workgroup_size ^ (L + 1) - 1)
            / workgroup_size ^ (L + 1)) 1 1
        ∈ events (m.dispatch_work [] cb2)) ∧
    (L < scan_then_propagate_level_count (count_buffer.size / 4 % 2 ^ 32)
        workgroup_size - 1 →
      Event.ran (some (.workgroup_propagate L)) (some [count_buffer]) none
          ((count_buffer.size / 4 % 2 ^ 32 + workgroup_size ^ (L + 1) - 1)
            / workgroup_size ^ (L + 1)) 1 1
        ∈ events (m.dispatch_work [] cb2))

/-- Conclusion of claim C10: the recorded commands are the clear of the
argument buffer followed by a tail that is a function of the module alone;
every buffer that tail binds is a construction-time buffer, and the stage
events after the head clear are identical whatever buffer is passed. -/
def FrameSpec (values_buffer count_buffer : Buffer)
    (m : GpuCountingSortModule) : Prop :=
  (∀ (enc : List Cmd) (cb2 : Buffer),
    m.dispatch_work enc cb2
      = enc ++ Cmd.pushDebugGroup "Counting Sort" :: Cmd.clearBuffer cb2
          :: dispatchTail m) ∧
  (∀ c ∈ dispatchTail m, ∀ b ∈ cmdBuffers c,
    b = values_buffer ∨ b = count_buffer ∨ b = m.sorting_id_buffer) ∧
  (∀ cb2 cb3 : Buffer,
    (events (m.dispatch_work [] cb2)).tail
      = (events (m.dispatch_work [] cb3)).tail) ∧
  (∀ cb2 : Buffer,
    (events (m.dispatch_work [] cb2)).head? = some (Event.cleared cb2))

/-! ## Invocation semantics

The compute kernels live in `shaders/*.wgsl`, which is not part of the
sources under verification; following the specification, each stage is
modelled by its documented net effect, and the scatter stage by an explicit
atomic-decrement placement processed in an arbitrary order. -/

/-- Element `i` of the value buffer. -/
def val (values : List Nat) (i : Nat) : Nat := values.getD i 0

/-- Modelled from the spec (§4.1, missing `shaders/counting.wgsl`): after the
Count stage, `count[b]` equals the number of elements with value `b`. -/
def histCount (values : List Nat) (b : Nat) : Nat := values.count b

/-- Modelled from the spec (§4.2, missing `shaders/scan.wgsl`): the net
effect of the scan and propagate levels is the inclusive prefix sum of the
histogram — bucket `b` holds the sum of the counts of buckets `0..=b`. -/
def scannedCount (values : List Nat) (b : Nat) : Nat :=
  ((List.range (b + 1)).map (histCount values)).sum

/-- Number of elements with value at most `b` (the closed form of
`scannedCount`). -/
def countLe (values : List Nat) (b : Nat) : Nat :=
  values.countP (fun v => decide (v ≤ b))

/-- Number of elements with value strictly below `b` (the start offset of
bucket `b`). -/
def countBelow (values : List Nat) (b : Nat) : Nat :=
  values.countP (fun v => decide (v < b))

/-- Pointwise store into a modelled buffer. -/
def updFn (f : Nat → Nat) (a v : Nat) : Nat → Nat :=
  fun x => if x = a then v else f x

/-- State of the scatter stage: the count buffer (holding the running
prefix-sum counters) and the sorting-id output buffer. -/
structure ScatterState where
  cnt : Nat → Nat
  out : Nat → Nat

/-- Modelled from the spec (§4.3, missing `shaders/sorting.wgsl`): one
invocation of the scatter kernel for element `i` claims slot
`count[value[i]] - 1` via atomic decrement and writes `i` there. -/
def scatterStep (values : List Nat) (st : ScatterState) (i : Nat) :
    ScatterState :=
  let b := val values i
  { cnt := updFn st.cnt b (st.cnt b - 1),
    out := updFn st.out (st.cnt b - 1) i }

/-- Modelled from the spec (§4.3): the scatter stage processes every element
exactly once, in an arbitrary interleaving `order`; the count buffer starts
from the scanned (inclusive prefix-sum) state and the sorting-id buffer from
arbitrary (zero) contents. -/
def scatterRun (values order : List Nat) : ScatterState :=
  order.foldl (scatterStep values) ⟨scannedCount values, fun _ => 0⟩

/-- Modelled from the spec (§3-§4): the sorting-id buffer contents after one
full invocation (clear, Count, scan levels, propagate levels, Scatter with
processing order `order`). -/
def gpuSortIds (values order : List Nat) : List Nat :=
  (List.range values.length).map (scatterRun values order).out

/-! ## CPU reference from `src/tests/test.rs` -/

/-- Embeds `is_sorted_by_id` (src/tests/test.rs:166-173): `true` unless some
adjacent pair has `values[sorting_id[i]] < values[sorting_id[i-1]]`. -/
def is_sorted_by_id (values sorting_id : List Nat) : Bool :=
  (List.range sorting_id.length).all (fun i =>
    if i = 0 then true
    else ! decide (values.getD (sorting_id.getD i 0) 0
            < values.getD (sorting_id.getD (i - 1) 0) 0))

/-- Number of already-scattered elements of bucket `b`, for a processed
index list `done`. -/
def procCount (values done : List Nat) (b : Nat) : Nat :=
  done.countP (fun i => decide (val values i = b))

/-- Slot `p` has been claimed for bucket `b`: it lies in the claimed suffix
of bucket `b`'s output range (the counter for `b` has moved down past it). -/
def claimedBy (values done : List Nat) (b p : Nat) : Prop :=
  countLe values b - procCount values done b ≤ p ∧ p < countLe values b

/-- Invariant of the scatter stage after processing the elements of `done`:
the counter of each bucket sits at its prefix sum minus the number of
processed elements of that bucket; every processed element occupies some
claimed slot; every claimed slot holds a processed element of the right
bucket; and distinct claimed slots of a bucket hold distinct elements. -/
def ScatterInv (values done : List Nat) (st : ScatterState) : Prop :=
  (∀ b, st.cnt b = countLe values b - procCount values done b) ∧
  (∀ i, i ∈ done →
    ∃ p, claimedBy values done (val values i) p ∧ st.out p = i) ∧
  (∀ b p, claimedBy values done b p →
    st.out p ∈ done ∧ val values (st.out p) = b) ∧
  (∀ b p q, claimedBy values done b p → claimedBy values done b q →
    st.out p = st.out q → p = q)

/-! ## Concrete buffers used to instantiate the theorems -/


/-- Usage set `STORAGE` only. -/
def usageStorage : BufferUsages := ⟨true, false, false⟩

/-- Usage set `STORAGE | COPY_DST`. -/
def usageStorageDst : BufferUsages := ⟨true, true, false⟩

/-- Usage set `STORAGE | COPY_SRC` (as the test's value buffer). -/
def usageStorageSrc : BufferUsages := ⟨true, false, true⟩

/-- Usage set `STORAGE | COPY_SRC | COPY_DST` (as the test's count buffer). -/
def usageAll : BufferUsages := ⟨true, true, true⟩

/-- A value buffer of 3 elements with `STORAGE` only. -/
def vbW1 : Buffer := ⟨12, usageStorage⟩

/-- A count buffer of 2 elements with `STORAGE | COPY_DST`. -/
def cbW1 : Buffer := ⟨8, usageStorageDst⟩

/-- The sorting-id buffer the engine allocates for `vbW1`. -/
def sidW1 : Buffer := ⟨12, usageStorageSrc⟩

/-- The engine built from `vbW1`, `cbW1` and work-group width 2
(count size 2, hence 2 scan levels and 1 propagate level). -/
def mW1 : GpuCountingSortModule :=
  { workgroup_size := 2, value_size := 3, count_size := 2,
    sorting_id_buffer := sidW1,
    counting_bind_group := [vbW1, cbW1],
    sorting_bind_group := [sidW1],
    count_buffer_bind_group := [cbW1],
    counting_pipeline := .counting,
    workgroup_scan_pipelines := [.workgroup_scan 0, .workgroup_scan 1],
    workgroup_propagate_pipelines := [.workgroup_propagate 0],
    sorting_pipeline := .sorting }

/-- A value buffer of 16 elements with `STORAGE` only. -/
def vbC2 : Buffer := ⟨64, usageStorage⟩

/-- A count buffer of 16 elements lacking `COPY_DST`. -/
def cbC2 : Buffer := ⟨64, usageStorage⟩

/-- A count buffer of 16 elements with `STORAGE | COPY_DST`. -/
def cbW2 : Buffer := ⟨64, usageStorageDst⟩

/-- The rejection-scenario value buffer: 4096 elements, `STORAGE | COPY_SRC`. -/
def vbC3 : Buffer := ⟨16384, usageStorageSrc⟩

/-- The rejection-scenario count buffer: 4096 elements, all usages. -/
def cbC3 : Buffer := ⟨16384, usageAll⟩

/-- A value buffer of 8 elements with `STORAGE` only. -/
def vbC7 : Buffer := ⟨32, usageStorage⟩

/-- A count buffer of 8 elements with `STORAGE | COPY_DST`. -/
def cbC7 : Buffer := ⟨32, usageStorageDst⟩

/-- The sorting-id buffer the engine allocates for `vbC7`. -/
def sidC7 : Buffer := ⟨32, usageStorageSrc⟩

/-- The engine built from `vbC7`, `cbC7` and work-group width 2
(count size 8, hence 4 scan levels and 3 propagate levels). -/
def mC7 : GpuCountingSortModule :=
  { workgroup_size := 2, value_size := 8, count_size := 8,
    sorting_id_buffer := sidC7,
    counting_bind_group := [vbC7, cbC7],
    sorting_bind_group := [sidC7],
    count_buffer_bind_group := [cbC7],
    counting_pipeline := .counting,
    workgroup_scan_pipelines :=
      [.workgroup_scan 0, .workgroup_scan 1, .workgroup_scan 2,
       .workgroup_scan 3],
    workgroup_propagate_pipelines :=
      [.workgroup_propagate 0, .workgroup_propagate 1, .workgroup_propagate 2],
    sorting_pipeline := .sorting }

/-- A value buffer of 2 elements with `STORAGE` only. -/
def vbC4 : Buffer := ⟨8, usageStorage⟩

/-- A count buffer of 2 elements with `STORAGE | COPY_DST` but without
`COPY_SRC` (no post-dispatch host copy-out). -/
def cbC4 : Buffer := ⟨8, usageStorageDst⟩

/-- A value buffer of 10 elements with `STORAGE` only. -/
def vbW8 : Buffer := ⟨40, usageStorage⟩

/-- A count buffer of 4 elements with `STORAGE | COPY_DST`. -/
def cbW8 : Buffer := ⟨16, usageStorageDst⟩

/-- The sorting-id buffer the engine allocates for `vbW8`. -/
def sidW8 : Buffer := ⟨40, usageStorageSrc⟩

/-- The engine built from `vbW8`, `cbW8` and work-group width 2
(count size 4, hence 3 scan levels and 2 propagate levels). -/
def mW8 : GpuCountingSortModule :=
  { workgroup_size := 2, value_size := 10, count_size := 4,
    sorting_id_buffer := sidW8,
    counting_bind_group := [vbW8, cbW8],
    sorting_bind_group := [sidW8],
    count_buffer_bind_group := [cbW8],
    counting_pipeline := .counting,
    workgroup_scan_pipelines :=
      [.workgroup_scan 0, .workgroup_scan 1, .workgroup_scan 2],
    workgroup_propagate_pipelines :=
      [.workgroup_propagate 0, .workgroup_propagate 1],
    sorting_pipeline := .sorting }

/-! ## Properties of the level planner -/

/-- The loop counter never decreases. -/
lemma le_levelCountLoop (w : Nat) : ∀ t c, c ≤ levelCountLoop w t c := by
  intro t
  induction t using Nat.strong_induction_on with
  | _ t ih =>
    intro c
    rw [levelCountLoop.eq_def]
    split
    · exact Nat.le_refl c
    · next h =>
      push_neg at h
      have ht : t / w < t := Nat.div_lt_self (Nat.pos_of_ne_zero h.1) (by omega)
      exact Nat.le_trans (Nat.le_succ c) (ih _ ht (c + 1))

/-- If the loop finishes within `k` more increments, the remaining size is
below `w ^ k`. -/
lemma lt_pow_of_levelCountLoop_le (w : Nat) (hw : 2 ≤ w) :
    ∀ k t c, levelCountLoop w t c ≤ c + k → t < w ^ k := by
  intro k
  induction k with
  | zero =>
    intro t c h
    rw [levelCountLoop.eq_def] at h
    split at h
    · next h0 =>
      rcases h0 with h0 | h0
      · simp [h0]
      · omega
    · have := le_levelCountLoop w (t / w) (c + 1)
      omega
  | succ k ih =>
    intro t c h
    rw [levelCountLoop.eq_def] at h
    split at h
    · next h0 =>
      rcases h0 with h0 | h0
      · exact h0 ▸ Nat.pos_pow_of_pos _ (by omega)
      · omega
    · next h0 =>
      push_neg at h0
      have h' : levelCountLoop w (t / w) (c + 1) ≤ (c + 1) + k := by omega
      have := ih (t / w) (c + 1) h'
      have hlt : t < w ^ k * w := (Nat.div_lt_iff_lt_mul (by omega)).mp this
      calc t < w ^ k * w := hlt
        _ = w ^ (k + 1) := (Nat.pow_succ w k).symm

/-- Conversely, a remaining size below `w ^ k` finishes within `k` more
increments. -/
lemma levelCountLoop_le_of_lt_pow (w : Nat) (hw : 2 ≤ w) :
    ∀ k t c, t < w ^ k → levelCountLoop w t c ≤ c + k := by
  intro k
  induction k with
  | zero =>
    intro t c h
    have ht : t = 0 := by simpa using h
    rw [levelCountLoop.eq_def]
    simp [ht]
  | succ k ih =>
    intro t c h
    rw [levelCountLoop.eq_def]
    split
    · omega
    · next h0 =>
      push_neg at h0
      have hdiv : t / w < w ^ k := by
        rw [Nat.div_lt_iff_lt_mul (by omega)]
        calc t < w ^ (k + 1) := h
          _ = w ^ k * w := Nat.pow_succ w k
      have := ih (t / w) (c + 1) hdiv
      omega

/-- A success of `GpuCountingSortModule.new` decomposed into its validation
facts and the explicit engine value. -/
lemma new_ok_elim {values_buffer count_buffer : Buffer} {workgroup_size : Nat}
    {m : GpuCountingSortModule}
    (h : GpuCountingSortModule.new values_buffer count_buffer workgroup_size
          = .ok m) :
    count_buffer.usage.copy_dst = true ∧
    values_buffer.usage.storage = true ∧
    count_buffer.usage.storage = true ∧
    workgroup_size ≠ 0 ∧
    ¬ (workgroup_size = 1 ∧ count_buffer.size / 4 % 2 ^ 32 ≠ 0) ∧
    scan_then_propagate_level_count (count_buffer.size / 4 % 2 ^ 32)
      workgroup_size ≤ 4 ∧
    m = { workgroup_size := workgroup_size,
          value_size := values_buffer.size / 4 % 2 ^ 32,
          count_size := count_buffer.size / 4 % 2 ^ 32,
          sorting_id_buffer := ⟨values_buffer.size, true, false, true⟩,
          counting_bind_group := [values_buffer, count_buffer],
          sorting_bind_group := [⟨values_buffer.size, true, false, true⟩],
          count_buffer_bind_group := [count_buffer],
          counting_pipeline := .counting,
          workgroup_scan_pipelines :=
            (List.range (scan_then_propagate_level_count
              (count_buffer.size / 4 % 2 ^ 32) workgroup_size)).map
              PipelineKind.workgroup_scan,
          workgroup_propagate_pipelines :=
            (List.range (scan_then_propagate_level_count
              (count_buffer.size / 4 % 2 ^ 32) workgroup_size - 1)).map
              PipelineKind.workgroup_propagate,
          sorting_pipeline := .sorting } := by
  unfold GpuCountingSortModule.new at h
  dsimp only at h
  split_ifs at h with h1 h2 h3 h4 h5 h6
  · simp only [NewResult.ok.injEq] at h
    refine ⟨by simpa using h1, by simpa using h2, by simpa using h3,
      h4, h5, by omega, h.symm⟩

/-- With passing capability checks and a well-defined planner run, a level
count above 4 yields exactly the `ToManyScanThenPropagateLevels` error. -/
lemma new_eq_errToMany {values_buffer count_buffer : Buffer}
    {workgroup_size : Nat}
    (hdst : count_buffer.usage.copy_dst = true)
    (hvs : values_buffer.usage.storage = true)
    (hcs : count_buffer.usage.storage = true)
    (hw0 : workgroup_size ≠ 0)
    (hw1 : ¬ (workgroup_size = 1 ∧ count_buffer.size / 4 % 2 ^ 32 ≠ 0))
    (hL : 4 < scan_then_propagate_level_count (count_buffer.size / 4 % 2 ^ 32)
            workgroup_size) :
    GpuCountingSortModule.new values_buffer count_buffer workgroup_size
      = .errToManyLevels (count_buffer.size / 4 % 2 ^ 32) workgroup_size
          (scan_then_propagate_level_count (count_buffer.size / 4 % 2 ^ 32)
            workgroup_size) := by
  unfold GpuCountingSortModule.new
  dsimp only
  rw [if_neg (by simp [hdst]), if_neg (by simp [hvs]), if_neg (by simp [hcs]),
    if_neg hw0, if_neg hw1, if_pos hL]

/-- With passing capability checks and a well-defined planner run, a level
count of at most 4 yields a successfully constructed engine. -/
lemma new_isOk {values_buffer count_buffer : Buffer} {workgroup_size : Nat}
    (hdst : count_buffer.usage.copy_dst = true)
    (hvs : values_buffer.usage.storage = true)
    (hcs : count_buffer.usage.storage = true)
    (hw0 : workgroup_size ≠ 0)
    (hw1 : ¬ (workgroup_size = 1 ∧ count_buffer.size / 4 % 2 ^ 32 ≠ 0))
    (hL : scan_then_propagate_level_count (count_buffer.size / 4 % 2 ^ 32)
            workgroup_size ≤ 4) :
    (GpuCountingSortModule.new values_buffer count_buffer workgroup_size).isOk
      = true := by
  unfold GpuCountingSortModule.new
  dsimp only
  rw [if_neg (by simp [hdst]), if_neg (by simp [hvs]), if_neg (by simp [hcs]),
    if_neg hw0, if_neg hw1, if_neg (by omega)]
  rfl

/-! ## Properties of the dispatch recording -/

/-- `dispatch_work` appends to the encoder a debug group, the clear of the
argument buffer, and a tail depending only on the module. -/
lemma dispatch_work_eq (m : GpuCountingSortModule) (enc : List Cmd)
    (cb2 : Buffer) :
    m.dispatch_work enc cb2
      = enc ++ Cmd.pushDebugGroup "Counting Sort" :: Cmd.clearBuffer cb2
          :: dispatchTail m := by
  simp [GpuCountingSortModule.dispatch_work, dispatchTail]

/-- Replaying the per-level blocks of the scan pass yields one `ran` event
per level, in order, with the pass-wide bind-group state unchanged. -/
lemma runEvents_flatMap_levelBlock (l : List (PipelineKind × Nat))
    (rest : List Cmd) (cur : Option PipelineKind)
    (b0 b1 : Option (List Buffer)) :
    ∃ cur2, runEvents (l.flatMap levelBlock ++ rest) cur b0 b1
      = l.map (fun pr => Event.ran (some pr.1) b0 b1 pr.2 1 1)
          ++ runEvents rest cur2 b0 b1 := by
  induction l generalizing cur with
  | nil => exact ⟨cur, rfl⟩
  | cons pr l ih =>
    obtain ⟨cur2, h⟩ := ih (some pr.1)
    refine ⟨cur2, ?_⟩
    simp only [List.flatMap_cons, levelBlock, List.append_assoc,
      List.cons_append, List.map_cons]
    rw [runEvents, runEvents, runEvents, runEvents]
    rw [List.nil_append, h]

/-- The stage events of one `dispatch_work` call, for an arbitrary module. -/
lemma dispatch_work_events (m : GpuCountingSortModule) (cb2 : Buffer) :
    events (m.dispatch_work [] cb2)
      = Event.cleared cb2
        :: Event.ran (some m.counting_pipeline) (some m.counting_bind_group)
             none ((m.value_size + m.workgroup_size - 1) / m.workgroup_size) 1 1
        :: (((m.workgroup_scan_pipelines.zip
                (workgroup_size_per_level m.count_size m.workgroup_size
                  m.workgroup_scan_pipelines.length)).map
              (fun pr => Event.ran (some pr.1)
                (some m.count_buffer_bind_group) none pr.2 1 1))
            ++ ((m.workgroup_propagate_pipelines.reverse.zip
                  ((workgroup_size_per_level m.count_size m.workgroup_size
                      m.workgroup_scan_pipelines.length).reverse.drop 1)).map
                (fun pr => Event.ran (some pr.1)
                  (some m.count_buffer_bind_group) none pr.2 1 1))
            ++ [Event.ran (some m.sorting_pipeline)
                  (some m.counting_bind_group) (some m.sorting_bind_group)
                  ((m.value_size + m.workgroup_size - 1) / m.workgroup_size)
                  1 1]) := by
  rw [dispatch_work_eq]
  unfold events dispatchTail
  dsimp only
  simp only [List.nil_append, List.cons_append, List.append_assoc]
  rw [runEvents, runEvents, runEvents, runEvents, runEvents, runEvents,
    runEvents, runEvents]
  obtain ⟨c2, h2⟩ := runEvents_flatMap_levelBlock
    (m.workgroup_scan_pipelines.zip
      (workgroup_size_per_level m.count_size m.workgroup_size
        m.workgroup_scan_pipelines.length)) _ none
    (some m.count_buffer_bind_group) none
  rw [h2]
  obtain ⟨c3, h3⟩ := runEvents_flatMap_levelBlock
    (m.workgroup_propagate_pipelines.reverse.zip
      ((workgroup_size_per_level m.count_size m.workgroup_size
          m.workgroup_scan_pipelines.length).reverse.drop 1)) _ c2
    (some m.count_buffer_bind_group) none
  rw [h3]
  rw [runEvents, runEvents, runEvents, runEvents, runEvents, runEvents,
    runEvents]
  simp

/-- Zipping the scan pipelines of a constructed engine with the planner's
size list pairs level `l` with the level-`(l+1)` array length. -/
lemma scan_zip_eq (L : Nat) (g : Nat → Nat) :
    ((List.range L).map PipelineKind.workgroup_scan).zip ((List.range L).map g)
      = (List.range L).map (fun l => (PipelineKind.workgroup_scan l, g l)) :=
  List.zip_map' _ _ _

/-- Zipping the reversed propagate pipelines with the reversed, shifted size
list pairs propagate level `l` with the same level-`(l+1)` array length, in
descending level order. -/
lemma propagate_zip_eq (n : Nat) (g : Nat → Nat) :
    (((List.range n).map PipelineKind.workgroup_propagate).reverse).zip
        ((((List.range (n + 1)).map g).reverse).drop 1)
      = ((List.range n).reverse).map
          (fun l => (PipelineKind.workgroup_propagate l, g l)) := by
  have h1 : (((List.range (n + 1)).map g).reverse).drop 1
      = ((List.range n).reverse).map g := by
    rw [List.range_succ, List.map_append, List.reverse_append]
    simp [List.map_reverse]
  rw [h1, ← List.map_reverse, List.zip_map']

/-- Iterated ceiling division by `w` equals ceiling division by the
corresponding power of `w`: the `(a + w - 1) / w` form, `≤`-characterised. -/
lemma ceilDiv_le_iff {w : Nat} (hw : 0 < w) (a q : Nat) :
    (a + w - 1) / w ≤ q ↔ a ≤ q * w := by
  rw [Nat.div_le_iff_le_mul_add_pred hw, Nat.mul_comm w q]
  omega

/-- Composing two ceiling divisions is ceiling division by the product. -/
lemma ceilDiv_ceilDiv (a u v : Nat) (hu : 0 < u) (hv : 0 < v) :
    ((a + u - 1) / u + v - 1) / v = (a + u * v - 1) / (u * v) := by
  have h1 : ∀ q, ((a + u - 1) / u + v - 1) / v ≤ q ↔ a ≤ q * (u * v) := by
    intro q
    rw [ceilDiv_le_iff hv, ceilDiv_le_iff hu]
    have : q * v * u = q * (u * v) := by ring
    rw [this]
  have h2 : ∀ q, (a + u * v - 1) / (u * v) ≤ q ↔ a ≤ q * (u * v) :=
    fun q => ceilDiv_le_iff (Nat.mul_pos hu hv) a q
  have hle1 := (h1 _).mpr ((h2 _).mp (Nat.le_refl _))
  have hle2 := (h2 _).mpr ((h1 _).mp (Nat.le_refl _))
  omega

/-- The successor-sequence entry `k+1` is the true ceiling `⌈B / w^(k+1)⌉`. -/
lemma iterCeilDiv_eq (B w : Nat) (hw : 0 < w) :
    ∀ k, iterCeilDiv B w (k + 1) = (B + w ^ (k + 1) - 1) / w ^ (k + 1) := by
  intro k
  induction k with
  | zero => simp [iterCeilDiv, ceilDivStep]
  | succ k ih =>
    show ceilDivStep w (iterCeilDiv B w (k + 1)) = _
    rw [ih]
    unfold ceilDivStep
    rw [ceilDiv_ceilDiv B (w ^ (k + 1)) w (Nat.pos_pow_of_pos _ hw) hw,
      ← Nat.pow_succ]

/-- The stage events of `dispatch_work` for a successfully constructed
engine, with pipelines, bind groups and work-group counts spelled out from
the construction inputs. -/
lemma dispatch_events_of_ok {values_buffer count_buffer : Buffer}
    {workgroup_size : Nat} {m : GpuCountingSortModule}
    (hm : GpuCountingSortModule.new values_buffer count_buffer workgroup_size
            = .ok m) (cb2 : Buffer) :
    StageOrderSpec values_buffer count_buffer workgroup_size m cb2 := by
  obtain ⟨-, -, -, hw0, -, -, hmod⟩ := new_ok_elim hm
  obtain ⟨n, hn⟩ : ∃ n, scan_then_propagate_level_count
      (count_buffer.size / 4 % 2 ^ 32) workgroup_size = n + 1 := by
    have := le_levelCountLoop workgroup_size
      (count_buffer.size / 4 % 2 ^ 32 / workgroup_size) 1
    exact ⟨scan_then_propagate_level_count
      (count_buffer.size / 4 % 2 ^ 32) workgroup_size - 1, by
        unfold scan_then_propagate_level_count
        omega⟩
  unfold StageOrderSpec
  subst hmod
  rw [dispatch_work_events]
  dsimp only
  rw [List.length_map, List.length_range]
  unfold workgroup_size_per_level
  rw [hn, Nat.add_sub_cancel, scan_zip_eq, propagate_zip_eq, List.map_map,
    List.map_map]
  simp [Function.comp_def]

/-- Every buffer referenced by a command of the dispatch tail is bound by
one of the module's three bind groups. -/
lemma dispatchTail_buffers_general (m : GpuCountingSortModule) :
    ∀ c ∈ dispatchTail m, ∀ b ∈ cmdBuffers c,
      b ∈ m.counting_bind_group ∨ b ∈ m.count_buffer_bind_group ∨
        b ∈ m.sorting_bind_group := by
  intro c hc b hb
  cases c with
  | setBindGroup slot g =>
    simp only [dispatchTail, levelBlock, List.mem_append, List.mem_cons,
      List.mem_flatMap, List.not_mem_nil, or_false, reduceCtorEq,
      Cmd.setBindGroup.injEq, false_or, false_and, exists_false,
      and_false, or_self] at hc
    simp only [cmdBuffers] at hb
    rcases hc with (⟨-, rfl⟩ | ⟨-, rfl⟩) | ⟨-, rfl⟩ | ⟨-, rfl⟩ <;> tauto
  | clearBuffer buf =>
    simp [dispatchTail, levelBlock] at hc
  | beginPass s => simp [cmdBuffers] at hb
  | setPipeline p => simp [cmdBuffers] at hb
  | dispatchWorkgroups x y z => simp [cmdBuffers] at hb
  | pushDebugGroup s => simp [cmdBuffers] at hb
  | popDebugGroup => simp [cmdBuffers] at hb
  | submitBatch => simp [cmdBuffers] at hb
  | waitBatch => simp [cmdBuffers] at hb

/-- In the tail of a `dispatch_work` recording of a constructed engine,
every buffer referenced by any command is one of the construction-time
buffers (value, count, engine-owned sorting-id). -/
lemma dispatchTail_buffers {values_buffer count_buffer : Buffer}
    {workgroup_size : Nat} {m : GpuCountingSortModule}
    (hm : GpuCountingSortModule.new values_buffer count_buffer workgroup_size
            = .ok m) :
    ∀ c ∈ dispatchTail m, ∀ b ∈ cmdBuffers c,
      b = values_buffer ∨ b = count_buffer ∨ b = m.sorting_id_buffer := by
  intro c hc b hb
  have h := dispatchTail_buffers_general m c hc b hb
  obtain ⟨-, -, -, -, -, -, hmod⟩ := new_ok_elim hm
  subst hmod
  simp only [List.mem_cons, List.not_mem_nil, or_false] at h
  tauto

/-! ## Counting lemmas for the scatter model -/

/-- Reading the slot just written. -/
lemma updFn_same (f : Nat → Nat) (a v : Nat) : updFn f a v a = v := by
  simp [updFn]

/-- Reading another slot. -/
lemma updFn_other (f : Nat → Nat) (a v x : Nat) (h : x ≠ a) :
    updFn f a v x = f x := by
  simp [updFn, h]

/-- Inclusive prefix count splits into the strict prefix count and the
bucket's own count. -/
lemma countLe_split (values : List Nat) (b : Nat) :
    countLe values b = countBelow values b + histCount values b := by
  induction values with
  | nil => rfl
  | cons v vs ih =>
    simp only [countLe, countBelow, histCount, List.countP_cons,
      List.count_cons, beq_iff_eq] at *
    rcases Nat.lt_trichotomy v b with h | h | h
    · have h1 : v ≤ b := by omega
      have h2 : ¬ v = b := by omega
      simp [h, h1, h2]
      omega
    · have h1 : v ≤ b := by omega
      have h2 : ¬ v < b := by omega
      simp [h, h1, h2]
      omega
    · have h1 : ¬ v ≤ b := by omega
      have h2 : ¬ v < b := by omega
      have h3 : ¬ v = b := by omega
      simp [h1, h2, h3]
      omega

/-- No value is strictly below bucket 0. -/
lemma countBelow_zero (values : List Nat) : countBelow values 0 = 0 := by
  simp [countBelow]

/-- The strict prefix count of bucket `b+1` is the inclusive prefix count of
bucket `b`. -/
lemma countBelow_succ (values : List Nat) (b : Nat) :
    countBelow values (b + 1) = countLe values b := by
  unfold countBelow countLe
  refine List.countP_congr (fun v _ => ?_)
  simp [Nat.lt_succ_iff]

/-- The spec's prefix sum of the histogram is the inclusive prefix count. -/
lemma scannedCount_eq_countLe (values : List Nat) (b : Nat) :
    scannedCount values b = countLe values b := by
  induction b with
  | zero =>
    have h0 : countLe values 0 = countBelow values 0 + histCount values 0 :=
      countLe_split values 0
    rw [countBelow_zero] at h0
    have hr : List.range 1 = [0] := rfl
    simp [scannedCount, hr, h0]
  | succ b ih =>
    unfold scannedCount at *
    rw [List.range_succ, List.map_append, List.sum_append, ih,
      countLe_split values (b + 1), countBelow_succ]
    simp

/-- Buckets are laid out in order: the inclusive prefix of a lower bucket
ends before the strict prefix of a higher bucket. -/
lemma countLe_le_countBelow (values : List Nat) {b c : Nat} (h : b < c) :
    countLe values b ≤ countBelow values c :=
  List.countP_mono_left (fun x _ hx => by
    simp only [decide_eq_true_eq] at hx ⊢
    omega)

/-- The histogram counted over element indices instead of elements. -/
lemma histCount_eq_range (values : List Nat) (b : Nat) :
    histCount values b
      = (List.range values.length).countP
          (fun i => decide (val values i = b)) := by
  induction values with
  | nil => rfl
  | cons v vs ih =>
    simp only [histCount, List.count_cons, List.length_cons,
      List.range_succ_eq_map, List.countP_cons, List.countP_map, beq_iff_eq]
        at *
    have hcomp : ((fun i => decide (val (v :: vs) i = b)) ∘ Nat.succ)
        = fun i => decide (val vs i = b) := by
      funext i
      simp [Function.comp, val]
    rw [hcomp, ← ih]
    simp [val]

/-- A processed-element count never exceeds the histogram count. -/
lemma procCount_le_hist (values done : List Nat) (b : Nat)
    (hnd : done.Nodup) (hsub : ∀ i ∈ done, i < values.length) :
    procCount values done b ≤ histCount values b := by
  rw [histCount_eq_range]
  obtain ⟨l', hp, hs⟩ :=
    hnd.subperm (fun i hi => List.mem_range.mpr (hsub i hi))
  calc procCount values done b
      = l'.countP (fun i => decide (val values i = b)) :=
        (hp.countP_eq _).symm
    _ ≤ _ := hs.countP_le _

/-- Processing one more element bumps exactly its bucket's count. -/
lemma procCount_append (values done : List Nat) (i b : Nat) :
    procCount values (done ++ [i]) b
      = procCount values done b + (if val values i = b then 1 else 0) := by
  simp [procCount, List.countP_append, List.countP_cons]

/-! ## The scatter invariant -/

/-- Scattering one fresh element preserves the invariant: the claimed
region of its bucket grows downward by exactly the slot it writes. -/
lemma scatterInv_step (values done : List Nat) (i : Nat) (st : ScatterState)
    (hnd : (done ++ [i]).Nodup)
    (hsub : ∀ j ∈ done ++ [i], j < values.length)
    (hinv : ScatterInv values done st) :
    ScatterInv values (done ++ [i]) (scatterStep values st i) := by
  obtain ⟨hcnt, hsurj, hval, hinj⟩ := hinv
  have hdnd : done.Nodup := (List.nodup_append.mp hnd).1
  have hidone : i ∉ done := by
    intro hmem
    exact (List.nodup_append.mp hnd).2.2 hmem (by simp)
  have hsubdone : ∀ j ∈ done, j < values.length :=
    fun j hj => hsub j (by simp [hj])
  have hproc1 : procCount values (done ++ [i]) (val values i)
      = procCount values done (val values i) + 1 := by
    rw [procCount_append]
    simp
  have hprocle : procCount values (done ++ [i]) (val values i)
      ≤ histCount values (val values i) :=
    procCount_le_hist values (done ++ [i]) _ hnd hsub
  have hproclt : procCount values done (val values i)
      < histCount values (val values i) := by omega
  have hsplitb := countLe_split values (val values i)
  have hcntb := hcnt (val values i)
  have hp0lb : countBelow values (val values i)
      ≤ st.cnt (val values i) - 1 := by omega
  have hp0ub : st.cnt (val values i) - 1 < countLe values (val values i) := by
    omega
  have hclaim_new : ∀ c p, claimedBy values (done ++ [i]) c p ↔
      (claimedBy values done c p ∨
        (c = val values i ∧ p = st.cnt (val values i) - 1)) := by
    intro c p
    by_cases hcb : c = val values i
    · subst hcb
      unfold claimedBy
      rw [hproc1]
      omega
    · have hne : ¬ (val values i = c) := fun h => hcb h.symm
      unfold claimedBy
      rw [procCount_append]
      simp [hne, hcb]
  have hp0unclaimed : ∀ c,
      ¬ claimedBy values done c (st.cnt (val values i) - 1) := by
    intro c hc
    by_cases hcb : c = val values i
    · subst hcb
      unfold claimedBy at hc
      omega
    · have hpcle : procCount values done c ≤ histCount values c :=
        procCount_le_hist values done c hdnd hsubdone
      have hsplitc := countLe_split values c
      unfold claimedBy at hc
      rcases Nat.lt_or_ge c (val values i) with h | h
      · have hmono := countLe_le_countBelow values h
        omega
      · have hlt : val values i < c := by omega
        have hmono := countLe_le_countBelow values hlt
        omega
  have hstep_cnt : (scatterStep values st i).cnt
      = updFn st.cnt (val values i) (st.cnt (val values i) - 1) := rfl
  have hstep_out : (scatterStep values st i).out
      = updFn st.out (st.cnt (val values i) - 1) i := rfl
  refine ⟨?_, ?_, ?_, ?_⟩
  · intro c
    rw [hstep_cnt]
    by_cases hcb : c = val values i
    · subst hcb
      rw [updFn_same, hproc1, hcntb]
      omega
    · rw [updFn_other _ _ _ _ hcb, hcnt c, procCount_append]
      have hne : ¬ (val values i = c) := fun h => hcb h.symm
      simp [hne]
  · intro j hj
    rcases List.mem_append.mp hj with hj | hj
    · obtain ⟨p, hp, hout⟩ := hsurj j hj
      have hpne : p ≠ st.cnt (val values i) - 1 := by
        intro he
        exact hp0unclaimed (val values j) (he ▸ hp)
      refine ⟨p, (hclaim_new _ _).mpr (Or.inl hp), ?_⟩
      rw [hstep_out, updFn_other _ _ _ _ hpne, hout]
    · have hj' : j = i := by simpa using hj
      subst hj'
      refine ⟨st.cnt (val values j) - 1,
        (hclaim_new _ _).mpr (Or.inr ⟨rfl, rfl⟩), ?_⟩
      rw [hstep_out, updFn_same]
  · intro c p hcp
    rw [hclaim_new] at hcp
    rcases hcp with hcp | ⟨hcb, hpp⟩
    · have hpne : p ≠ st.cnt (val values i) - 1 := by
        intro he
        exact hp0unclaimed c (he ▸ hcp)
      rw [hstep_out, updFn_other _ _ _ _ hpne]
      obtain ⟨hmem, hvp⟩ := hval c p hcp
      exact ⟨List.mem_append_left _ hmem, hvp⟩
    · subst hcb
      subst hpp
      rw [hstep_out, updFn_same]
      exact ⟨List.mem_append_right _ (by simp), rfl⟩
  · intro c p q hp hq heq
    rw [hclaim_new] at hp hq
    rw [hstep_out] at heq
    rcases hp with hp | ⟨hcb, hpp⟩ <;> rcases hq with hq | ⟨hcb', hqq⟩
    · have hpne : p ≠ st.cnt (val values i) - 1 := by
        intro he
        exact hp0unclaimed c (he ▸ hp)
      have hqne : q ≠ st.cnt (val values i) - 1 := by
        intro he
        exact hp0unclaimed c (he ▸ hq)
      rw [updFn_other _ _ _ _ hpne, updFn_other _ _ _ _ hqne] at heq
      exact hinj c p q hp hq heq
    · subst hqq
      have hpne : p ≠ st.cnt (val values i) - 1 := by
        intro he
        exact hp0unclaimed c (he ▸ hp)
      rw [updFn_other _ _ _ _ hpne, updFn_same] at heq
      have hmem := (hval c p hp).1
      rw [heq] at hmem
      exact absurd hmem hidone
    · subst hpp
      have hqne : q ≠ st.cnt (val values i) - 1 := by
        intro he
        exact hp0unclaimed c (he ▸ hq)
      rw [updFn_same, updFn_other _ _ _ _ hqne] at heq
      have hmem := (hval c q hq).1
      rw [← heq] at hmem
      exact absurd hmem hidone
    · rw [hpp, hqq]

/-- Folding the scatter step over any remaining distinct, in-range elements
preserves the invariant. -/
lemma scatterInv_run (values : List Nat) :
    ∀ (rest done : List Nat) (st : ScatterState),
      (done ++ rest).Nodup → (∀ j ∈ done ++ rest, j < values.length) →
      ScatterInv values done st →
      ScatterInv values (done ++ rest) (rest.foldl (scatterStep values) st)
  | [], done, st, _, _, hinv => by simpa using hinv
  | i :: rest, done, st, hnd, hsub, hinv => by
    have hrw : done ++ i :: rest = (done ++ [i]) ++ rest := by simp
    rw [hrw] at hnd hsub ⊢
    have hsl : List.Sublist (done ++ [i]) (done ++ i :: rest) :=
      List.Sublist.append_left (List.cons_sublist_cons.mpr (List.nil_sublist rest)) done
    rw [hrw] at hsl
    have hstep := scatterInv_step values done i st (hsl.nodup hnd)
      (fun j hj => hsub j (List.mem_append_left rest hj)) hinv
    exact scatterInv_run values rest (done ++ [i])
      (scatterStep values st i) hnd hsub hstep

/-- The invariant holds before any element is scattered: the counters sit at
the inclusive prefix sums and no slot is claimed. -/
lemma scatterInv_init (values : List Nat) :
    ScatterInv values [] ⟨scannedCount values, fun _ => 0⟩ := by
  refine ⟨fun b => ?_, fun i hi => absurd hi (List.not_mem_nil i),
    fun b p hp => absurd hp ?_, fun b p q hp _ _ => absurd hp ?_⟩
  · simp [procCount, scannedCount_eq_countLe]
  · unfold claimedBy procCount
    simp
  · unfold claimedBy procCount
    simp

/-- Every output slot below the prefix total of a maximal bucket is claimed
after a complete scatter pass: the bucket ranges tile `[0, N)`. -/
lemma bucket_cover (values : List Nat) (B : Nat)
    (hv : ∀ v ∈ values, v < B) (p : Nat) (hp : p < values.length) :
    ∃ b, countBelow values b ≤ p ∧ p < countLe values b := by
  have hne : values ≠ [] := by
    intro h
    rw [h] at hp
    simp at hp
  obtain ⟨v₀, hv₀⟩ := List.exists_mem_of_ne_nil values hne
  have hB : 1 ≤ B := by
    have := hv v₀ hv₀
    omega
  have hfull : countLe values (B - 1) = values.length := by
    refine List.countP_eq_length.mpr (fun v hvv => ?_)
    have := hv v hvv
    simp
    omega
  have hex : ∃ b, p < countLe values b := ⟨B - 1, by omega⟩
  refine ⟨Nat.find hex, ?_, Nat.find_spec hex⟩
  rcases hfb : Nat.find hex with _ | b'
  · rw [countBelow_zero]
    exact Nat.zero_le p
  · have hmin : ¬ p < countLe values b' := Nat.find_min hex (by omega)
    rw [countBelow_succ]
    omega

/-- Reading a slot of the materialised sorting-id list. -/
lemma gpuSortIds_getD (values order : List Nat) (k : Nat)
    (hk : k < values.length) :
    (gpuSortIds values order).getD k 0 = (scatterRun values order).out k := by
  unfold gpuSortIds
  rw [List.getD_eq_getElem _ _ (by simpa using hk)]
  simp

/-- Modelled from the spec (§4.3 postcondition): after a complete scatter
pass in any processing order, the sorting-id buffer is a permutation of
`[0, N)` and reading the values through it is non-decreasing. -/
lemma scatter_final (values order : List Nat) (B : Nat)
    (hv : ∀ v ∈ values, v < B)
    (horder : order.Perm (List.range values.length)) :
    (gpuSortIds values order).Perm (List.range values.length) ∧
    is_sorted_by_id values (gpuSortIds values order) = true := by
  have hndorder : order.Nodup := horder.nodup_iff.mpr (List.nodup_range _)
  have hmem : ∀ j ∈ order, j < values.length :=
    fun j hj => List.mem_range.mp (horder.mem_iff.mp hj)
  have hinv : ScatterInv values order (scatterRun values order) := by
    have h := scatterInv_run values order [] ⟨scannedCount values, fun _ => 0⟩
      (by simpa using hndorder) (by simpa using hmem) (scatterInv_init values)
    simpa [scatterRun] using h
  obtain ⟨hcnt, hsurj, hval, hinj⟩ := hinv
  have hproc : ∀ b, procCount values order b = histCount values b := by
    intro b
    unfold procCount
    rw [horder.countP_eq]
    exact (histCount_eq_range values b).symm
  have hclaim : ∀ b p, claimedBy values order b p ↔
      (countBelow values b ≤ p ∧ p < countLe values b) := by
    intro b p
    have hsplit := countLe_split values b
    unfold claimedBy
    rw [hproc b]
    omega
  have hcover : ∀ p, p < values.length →
      claimedBy values order (val values ((scatterRun values order).out p)) p ∧
      (scatterRun values order).out p ∈ order := by
    intro p hp
    obtain ⟨b, hb⟩ := bucket_cover values B hv p hp
    have hcp : claimedBy values order b p := (hclaim b p).mpr hb
    obtain ⟨hm, hvp⟩ := hval b p hcp
    exact ⟨hvp ▸ hcp, hm⟩
  have hinj2 : ∀ p ∈ List.range values.length, ∀ q ∈ List.range values.length,
      (scatterRun values order).out p = (scatterRun values order).out q →
      p = q := by
    intro p hp q hq heq
    obtain ⟨hcp, -⟩ := hcover p (List.mem_range.mp hp)
    obtain ⟨hcq, -⟩ := hcover q (List.mem_range.mp hq)
    rw [heq] at hcp
    exact hinj _ p q hcp hcq heq
  have hmem2 : ∀ p ∈ List.range values.length,
      (scatterRun values order).out p ∈ List.range values.length := by
    intro p hp
    obtain ⟨-, hm⟩ := hcover p (List.mem_range.mp hp)
    exact horder.mem_iff.mp hm
  have hperm : (gpuSortIds values order).Perm (List.range values.length) := by
    unfold gpuSortIds
    have hnodup : ((List.range values.length).map
        (scatterRun values order).out).Nodup :=
      List.Nodup.map_on hinj2 (List.nodup_range _)
    have hsubset : (List.range values.length).map
        (scatterRun values order).out ⊆ List.range values.length := by
      intro x hx
      obtain ⟨p, hp, rfl⟩ := List.mem_map.mp hx
      exact hmem2 p hp
    exact (hnodup.subperm hsubset).perm_of_length_le (by simp)
  refine ⟨hperm, ?_⟩
  unfold is_sorted_by_id
  rw [List.all_eq_true]
  intro k hk
  have hklen : k < values.length := by
    have := List.mem_range.mp hk
    simpa [gpuSortIds] using this
  by_cases hk0 : k = 0
  · simp [hk0]
  · rw [if_neg hk0]
    have hk1 : k - 1 < values.length := by omega
    rw [gpuSortIds_getD values order k hklen,
      gpuSortIds_getD values order (k - 1) hk1]
    obtain ⟨hcp, -⟩ := hcover (k - 1) hk1
    obtain ⟨hcq, -⟩ := hcover k hklen
    rw [hclaim] at hcp hcq
    simp only [Bool.not_eq_eq_eq_not, Bool.not_true, decide_eq_false_iff_not]
    intro hlt
    have hmono := countLe_le_countBelow values
      (show val values ((scatterRun values order).out k)
          < val values ((scatterRun values order).out (k - 1)) from hlt)
    omega

/-! ## Claims about construction and validation -/

/-- C2 (counterexample): with a count buffer lacking `COPY_DST`, a
configuration whose level count exceeds 4 (here B = 16, w = 2, 5 levels) is
reported as `MissingBufferUsage`, not as the `TooManyLevels` error the claim
requires unconditionally. -/
theorem claim_C2_counterexample :
    cbC2.size / 4 % 2 ^ 32 = 16 ∧
    4 < scan_then_propagate_level_count 16 2 ∧
    GpuCountingSortModule.new vbC2 cbC2 2
      = .errMissingBufferUsage .COPY_DST "Count buffer" := by
  refine ⟨by norm_num [cbC2], by simp [scan_then_propagate_level_count, levelCountLoop], ?_⟩
  simp [GpuCountingSortModule.new, vbC2, cbC2, usageStorage]

/-- C2 (amended): for work-group width at least 2 and buffers passing the
capability checks, a computed level count above 4 yields exactly the
`TooManyLevels` error carrying (B, width, level count) and no engine, and a
level count of at most 4 yields a successfully constructed engine. -/
theorem claim_C2 (values_buffer count_buffer : Buffer) (workgroup_size : Nat)
    (hw : 2 ≤ workgroup_size)
    (hdst : count_buffer.usage.copy_dst = true)
    (hvs : values_buffer.usage.storage = true)
    (hcs : count_buffer.usage.storage = true) :
    (4 < scan_then_propagate_level_count (count_buffer.size / 4 % 2 ^ 32)
          workgroup_size →
      GpuCountingSortModule.new values_buffer count_buffer workgroup_size
        = .errToManyLevels (count_buffer.size / 4 % 2 ^ 32) workgroup_size
            (scan_then_propagate_level_count (count_buffer.size / 4 % 2 ^ 32)
              workgroup_size)) ∧
    (scan_then_propagate_level_count (count_buffer.size / 4 % 2 ^ 32)
        workgroup_size ≤ 4 →
      (GpuCountingSortModule.new values_buffer count_buffer
          workgroup_size).isOk = true) :=
  ⟨fun hL => new_eq_errToMany hdst hvs hcs (by omega) (by omega) hL,
   fun hL => new_isOk hdst hvs hcs (by omega) (by omega) hL⟩

/-- C2 (witness): the amended claim instantiated at B = 16, w = 2
(5 levels, rejected with the `TooManyLevels` error). -/
theorem claim_C2_witness :
    (2 ≤ 2 ∧ cbW2.usage.copy_dst = true ∧ vbC2.usage.storage = true ∧
      cbW2.usage.storage = true) ∧
    ((4 < scan_then_propagate_level_count (cbW2.size / 4 % 2 ^ 32) 2 →
        GpuCountingSortModule.new vbC2 cbW2 2
          = .errToManyLevels (cbW2.size / 4 % 2 ^ 32) 2
              (scan_then_propagate_level_count (cbW2.size / 4 % 2 ^ 32) 2)) ∧
      (scan_then_propagate_level_count (cbW2.size / 4 % 2 ^ 32) 2 ≤ 4 →
        (GpuCountingSortModule.new vbC2 cbW2 2).isOk = true)) :=
  ⟨⟨Nat.le_refl 2, rfl, rfl, rfl⟩, claim_C2 vbC2 cbW2 2 (Nat.le_refl 2) rfl rfl rfl⟩

/-- C3 (counterexample): B = 4096 with work-group width 32 computes only 3
levels, so construction succeeds; it does not fail with `TooManyLevels`. -/
theorem claim_C3_counterexample :
    cbC3.size / 4 % 2 ^ 32 = 4096 ∧
    scan_then_propagate_level_count 4096 32 = 3 ∧
    (GpuCountingSortModule.new vbC3 cbC3 32).isOk = true ∧
    GpuCountingSortModule.new vbC3 cbC3 32
      ≠ .errToManyLevels 4096 32 (scan_then_propagate_level_count 4096 32) := by
  refine ⟨by norm_num [cbC3],
    by simp [scan_then_propagate_level_count, levelCountLoop], ?_, ?_⟩ <;>
    simp [GpuCountingSortModule.new, vbC3, cbC3, usageAll, usageStorageSrc,
      NewResult.isOk, scan_then_propagate_level_count, levelCountLoop]

/-- C3 (amended): constructing the engine with a 4096-element count buffer
and work-group width 32 (buffers having the required usages) succeeds: the
computed level count is 3 ≤ 4 and an engine is produced. -/
theorem claim_C3 (values_buffer count_buffer : Buffer)
    (hsize : count_buffer.size = 16384)
    (hdst : count_buffer.usage.copy_dst = true)
    (hvs : values_buffer.usage.storage = true)
    (hcs : count_buffer.usage.storage = true) :
    scan_then_propagate_level_count 4096 32 = 3 ∧
    (GpuCountingSortModule.new values_buffer count_buffer 32).isOk = true := by
  have h3 : scan_then_propagate_level_count 4096 32 = 3 := by
    simp [scan_then_propagate_level_count, levelCountLoop]
  refine ⟨h3, new_isOk hdst hvs hcs (by omega) (by omega) ?_⟩
  have hB : count_buffer.size / 4 % 2 ^ 32 = 4096 := by norm_num [hsize]
  rw [hB, h3]
  omega

/-- C3 (witness): the amended claim instantiated at the concrete buffers of
the rejection scenario. -/
theorem claim_C3_witness :
    (cbC3.size = 16384 ∧ cbC3.usage.copy_dst = true ∧
      vbC3.usage.storage = true ∧ cbC3.usage.storage = true) ∧
    (scan_then_propagate_level_count 4096 32 = 3 ∧
      (GpuCountingSortModule.new vbC3 cbC3 32).isOk = true) :=
  ⟨⟨rfl, rfl, rfl, rfl⟩, claim_C3 vbC3 cbC3 rfl rfl rfl rfl⟩

/-- C4 (counterexample): a count buffer lacking `COPY_SRC` (post-dispatch
host copy-out) is accepted — the code never checks that capability, contrary
to the claim. -/
theorem claim_C4_counterexample :
    cbC4.usage.copy_src = false ∧
    (GpuCountingSortModule.new vbC4 cbC4 2).isOk = true := by
  refine ⟨rfl, ?_⟩
  simp [GpuCountingSortModule.new, vbC4, cbC4, usageStorage, usageStorageDst,
    NewResult.isOk, scan_then_propagate_level_count, levelCountLoop]

/-- C4 (amended): the capability checks are exactly: the count buffer needs
`COPY_DST` (host-initiated clear) and `STORAGE` (parallel read/write), and
the value buffer needs `STORAGE` (parallel read); each failing check yields
`MissingBufferUsage` naming the missing flag and the offending buffer, in
the order the source tests them, and when all three hold the result is never
a `MissingBufferUsage` error.  Post-dispatch host copy-out (`COPY_SRC`) is
not checked. -/
theorem claim_C4 (values_buffer count_buffer : Buffer) (workgroup_size : Nat) :
    (count_buffer.usage.copy_dst = false →
      GpuCountingSortModule.new values_buffer count_buffer workgroup_size
        = .errMissingBufferUsage .COPY_DST "Count buffer") ∧
    (count_buffer.usage.copy_dst = true → values_buffer.usage.storage = false →
      GpuCountingSortModule.new values_buffer count_buffer workgroup_size
        = .errMissingBufferUsage .STORAGE "Values buffer") ∧
    (count_buffer.usage.copy_dst = true → values_buffer.usage.storage = true →
      count_buffer.usage.storage = false →
      GpuCountingSortModule.new values_buffer count_buffer workgroup_size
        = .errMissingBufferUsage .STORAGE "Count buffer") ∧
    (count_buffer.usage.copy_dst = true → values_buffer.usage.storage = true →
      count_buffer.usage.storage = true →
      ∀ u s, GpuCountingSortModule.new values_buffer count_buffer workgroup_size
        ≠ .errMissingBufferUsage u s) := by
  refine ⟨fun h1 => ?_, fun h1 h2 => ?_, fun h1 h2 h3 => ?_, fun h1 h2 h3 u s => ?_⟩
  · unfold GpuCountingSortModule.new
    rw [if_pos (by simp [h1])]
  · unfold GpuCountingSortModule.new
    rw [if_neg (by simp [h1]), if_pos (by simp [h2])]
  · unfold GpuCountingSortModule.new
    rw [if_neg (by simp [h1]), if_neg (by simp [h2]), if_pos (by simp [h3])]
  · unfold GpuCountingSortModule.new
    dsimp only
    rw [if_neg (by simp [h1]), if_neg (by simp [h2]), if_neg (by simp [h3])]
    split_ifs <;> simp

/-- C4 (witness): the amended claim instantiated at a count buffer lacking
`COPY_DST`. -/
theorem claim_C4_witness :
    cbC2.usage.copy_dst = false ∧
    GpuCountingSortModule.new vbC2 cbC2 2
      = .errMissingBufferUsage .COPY_DST "Count buffer" :=
  ⟨rfl, (claim_C4 vbC2 cbC2 2).1 rfl⟩

/-- C7 (counterexample): the engine accepts B = 8 with work-group width 2
(4 levels), although 8 > 2² — the claimed invariant B ≤ w² does not hold of
accepted engines. -/
theorem claim_C7_counterexample :
    GpuCountingSortModule.new vbC7 cbC7 2 = .ok mC7 ∧
    mC7.count_size = 8 ∧ ¬ (mC7.count_size ≤ 2 ^ 2) := by
  refine ⟨?_, rfl, by norm_num [mC7]⟩
  simp [GpuCountingSortModule.new, vbC7, cbC7, mC7, sidC7, usageStorage,
    usageStorageDst, usageStorageSrc, scan_then_propagate_level_count,
    levelCountLoop, List.range_succ]

/-- C7 (amended): every accepted engine satisfies B < w⁴ (the level planner
admits up to four scan levels, i.e. a count-buffer length below the fourth
power of the work-group width — not B ≤ w²). -/
theorem claim_C7 (values_buffer count_buffer : Buffer) (workgroup_size : Nat)
    (m : GpuCountingSortModule)
    (h : GpuCountingSortModule.new values_buffer count_buffer workgroup_size
          = .ok m) :
    m.count_size < workgroup_size ^ 4 := by
  obtain ⟨h1, h2, h3, hw0, hw1, hlev, hm⟩ := new_ok_elim h
  subst hm
  dsimp only
  rcases Nat.lt_or_ge workgroup_size 2 with hw | hw
  · have hone : workgroup_size = 1 := by omega
    subst hone
    have hB0 : count_buffer.size / 4 % 2 ^ 32 = 0 := by
      by_contra h0
      exact hw1 ⟨rfl, h0⟩
    rw [hB0]
    norm_num
  · unfold scan_then_propagate_level_count at hlev
    have h4 : levelCountLoop workgroup_size
        (count_buffer.size / 4 % 2 ^ 32 / workgroup_size) 1 ≤ 1 + 3 := by omega
    have hdiv := lt_pow_of_levelCountLoop_le workgroup_size hw 3
      (count_buffer.size / 4 % 2 ^ 32 / workgroup_size) 1 h4
    have hlt : count_buffer.size / 4 % 2 ^ 32 < workgroup_size ^ 3 * workgroup_size :=
      (Nat.div_lt_iff_lt_mul (by omega)).mp hdiv
    calc count_buffer.size / 4 % 2 ^ 32
        < workgroup_size ^ 3 * workgroup_size := hlt
      _ = workgroup_size ^ 4 := by ring

/-- C7 (witness): the amended bound instantiated at the accepted engine with
B = 8, w = 2: 8 < 2⁴. -/
theorem claim_C7_witness :
    GpuCountingSortModule.new vbC7 cbC7 2 = .ok mC7 ∧ mC7.count_size < 2 ^ 4 := by
  have h : GpuCountingSortModule.new vbC7 cbC7 2 = .ok mC7 := by
    simp [GpuCountingSortModule.new, vbC7, cbC7, mC7, sidC7, usageStorage,
      usageStorageDst, usageStorageSrc, scan_then_propagate_level_count,
      levelCountLoop, List.range_succ]
  exact ⟨h, claim_C7 vbC7 cbC7 2 mC7 h⟩

/-- C8 (confirmed): the engine allocates the sorting-id buffer with byte size
equal to the value buffer's byte size (`STORAGE | COPY_SRC` usage), so its
element length equals the value-buffer length, and the accessor field holds
exactly that engine-owned buffer (also the one bound by the sorting bind
group). -/
theorem claim_C8 (values_buffer count_buffer : Buffer) (workgroup_size : Nat)
    (m : GpuCountingSortModule)
    (h : GpuCountingSortModule.new values_buffer count_buffer workgroup_size
          = .ok m) :
    m.sorting_id_buffer = ⟨values_buffer.size, true, false, true⟩ ∧
    m.sorting_id_buffer.size = values_buffer.size ∧
    m.sorting_id_buffer.size / 4 = values_buffer.size / 4 ∧
    m.sorting_bind_group = [m.sorting_id_buffer] := by
  obtain ⟨-, -, -, -, -, -, hm⟩ := new_ok_elim h
  subst hm
  exact ⟨rfl, rfl, rfl, rfl⟩

/-- C8 (witness): instantiated at a 10-element value buffer and a 4-element
count buffer (so B ≠ N): the sorting-id buffer still matches the value
buffer's 40 bytes. -/
theorem claim_C8_witness :
    GpuCountingSortModule.new vbW8 cbW8 2 = .ok mW8 ∧
    (mW8.sorting_id_buffer = ⟨vbW8.size, true, false, true⟩ ∧
      mW8.sorting_id_buffer.size = vbW8.size ∧
      mW8.sorting_id_buffer.size / 4 = vbW8.size / 4 ∧
      mW8.sorting_bind_group = [mW8.sorting_id_buffer]) := by
  have h : GpuCountingSortModule.new vbW8 cbW8 2 = .ok mW8 := by
    simp [GpuCountingSortModule.new, vbW8, cbW8, mW8, sidW8, usageStorage,
      usageStorageDst, usageStorageSrc, scan_then_propagate_level_count,
      levelCountLoop, List.range_succ]
  exact ⟨h, claim_C8 vbW8 cbW8 2 mW8 h⟩

/-- C9 (confirmed): with buffers carrying the required usages, constructing
with work-group width 0 reaches the division `size / workgroup_size` in the
level planner and panics with a division by zero; no error value is
returned. -/
theorem claim_C9 (values_buffer count_buffer : Buffer)
    (hdst : count_buffer.usage.copy_dst = true)
    (hvs : values_buffer.usage.storage = true)
    (hcs : count_buffer.usage.storage = true) :
    GpuCountingSortModule.new values_buffer count_buffer 0
      = .panicDivByZero := by
  unfold GpuCountingSortModule.new
  dsimp only
  rw [if_neg (by simp [hdst]), if_neg (by simp [hvs]), if_neg (by simp [hcs]),
    if_pos rfl]

/-- C9 (witness): instantiated at buffers with the required usages. -/
theorem claim_C9_witness :
    (cbC7.usage.copy_dst = true ∧ vbC7.usage.storage = true ∧
      cbC7.usage.storage = true) ∧
    GpuCountingSortModule.new vbC7 cbC7 0 = .panicDivByZero :=
  ⟨⟨rfl, rfl, rfl⟩, claim_C9 vbC7 cbC7 rfl rfl rfl⟩

/-! ## The functional-correctness claim -/

/-- C1 (confirmed): for every value buffer of `N` keys each in `[0, B)` and
every successfully constructed engine over a count buffer of `B` elements,
one full invocation — clear, Count, scan levels, propagate levels, and a
Scatter processed in an arbitrary order — leaves the sorting-id buffer a
permutation of `[0, N)` along which the values are non-decreasing (the
repository's `is_sorted_by_id` check). -/
theorem claim_C1 (values order : List Nat)
    (values_buffer count_buffer : Buffer) (workgroup_size : Nat)
    (m : GpuCountingSortModule)
    (hm : GpuCountingSortModule.new values_buffer count_buffer workgroup_size
            = .ok m)
    (hv : ∀ v ∈ values, v < m.count_size)
    (hN : values.length = m.value_size)
    (horder : order.Perm (List.range values.length)) :
    (gpuSortIds values order).Perm (List.range values.length) ∧
    is_sorted_by_id values (gpuSortIds values order) = true :=
  scatter_final values order m.count_size hv horder

/-- C1 (witness): the engine over a 2-bucket count buffer sorting the
3-element value buffer `[1, 0, 1]` with scatter order `[2, 0, 1]`. -/
theorem claim_C1_witness :
    (GpuCountingSortModule.new vbW1 cbW1 2 = .ok mW1 ∧
      (∀ v ∈ ([1, 0, 1] : List Nat), v < mW1.count_size) ∧
      ([1, 0, 1] : List Nat).length = mW1.value_size ∧
      ([2, 0, 1] : List Nat).Perm
        (List.range ([1, 0, 1] : List Nat).length)) ∧
    ((gpuSortIds [1, 0, 1] [2, 0, 1]).Perm
        (List.range ([1, 0, 1] : List Nat).length) ∧
      is_sorted_by_id [1, 0, 1] (gpuSortIds [1, 0, 1] [2, 0, 1]) = true) := by
  have h : GpuCountingSortModule.new vbW1 cbW1 2 = .ok mW1 := by
    simp [GpuCountingSortModule.new, vbW1, cbW1, mW1, sidW1, usageStorage,
      usageStorageDst, usageStorageSrc, scan_then_propagate_level_count,
      levelCountLoop, List.range_succ]
  exact ⟨⟨h, by decide, by decide, by decide⟩,
    claim_C1 [1, 0, 1] [2, 0, 1] vbW1 cbW1 2 mW1 h (by decide) (by decide)
      (by decide)⟩

/-! ## Claims about the dispatch recording -/

/-- C5 (confirmed): each `dispatch_work` call only appends to the given
command batch: first the clear of the count buffer, then the Count stage,
the Workgroup-Scan stages in ascending level order, the Propagate stages for
every level but the last in descending level order, and the Scatter stage;
no queue submission or wait is recorded. -/
theorem claim_C5 (values_buffer count_buffer : Buffer) (workgroup_size : Nat)
    (m : GpuCountingSortModule) (enc : List Cmd) (cb2 : Buffer)
    (hm : GpuCountingSortModule.new values_buffer count_buffer workgroup_size
            = .ok m) :
    DispatchSpec values_buffer count_buffer workgroup_size m enc cb2 := by
  refine ⟨?_, ?_, ?_, dispatch_events_of_ok hm cb2⟩
  · rw [dispatch_work_eq, dispatch_work_eq, List.nil_append]
  · rw [dispatch_work_eq, List.nil_append]
    simp [dispatchTail, levelBlock]
  · rw [dispatch_work_eq, List.nil_append]
    simp [dispatchTail, levelBlock]

/-- C5 (witness): the dispatch contract instantiated at the engine built
from a 10-element value buffer and 4-element count buffer at width 2. -/
theorem claim_C5_witness :
    GpuCountingSortModule.new vbW8 cbW8 2 = .ok mW8 ∧
    DispatchSpec vbW8 cbW8 2 mW8 [] cbW8 := by
  have h : GpuCountingSortModule.new vbW8 cbW8 2 = .ok mW8 := by
    simp [GpuCountingSortModule.new, vbW8, cbW8, mW8, sidW8, usageStorage,
      usageStorageDst, usageStorageSrc, scan_then_propagate_level_count,
      levelCountLoop, List.range_succ]
  exact ⟨h, claim_C5 vbW8 cbW8 2 mW8 [] cbW8 h⟩

/-- C6 (confirmed): construction builds exactly `levels` specialized scan
pipelines and `levels - 1` propagate pipelines, and `dispatch_work` launches
the scan and propagate stages of level `L` with `⌈B / w^(L+1)⌉` work-groups,
equal to the level-`(L+1)` array length from iterated ceiling division. -/
theorem claim_C6 (values_buffer count_buffer : Buffer) (workgroup_size : Nat)
    (m : GpuCountingSortModule)
    (hm : GpuCountingSortModule.new values_buffer count_buffer workgroup_size
            = .ok m) :
    KernelSetSpec count_buffer workgroup_size m := by
  obtain ⟨-, -, -, hw0, -, -, hmod⟩ := new_ok_elim hm
  have hw : 0 < workgroup_size := Nat.pos_of_ne_zero hw0
  have hev := dispatch_events_of_ok hm
  unfold StageOrderSpec at hev
  rw [hmod] at *
  refine ⟨rfl, rfl, by simp, by simp,
    fun k => iterCeilDiv_eq (count_buffer.size / 4 % 2 ^ 32) workgroup_size hw k,
    fun cb2 L => ⟨fun hL => ?_, fun hL => ?_⟩⟩
  · rw [hev cb2]
    refine List.mem_cons_of_mem _ (List.mem_cons_of_mem _
      (List.mem_append_left _ (List.mem_map.mpr
        ⟨L, List.mem_range.mpr hL, ?_⟩)))
    rw [iterCeilDiv_eq _ _ hw L]
  · rw [hev cb2]
    refine List.mem_cons_of_mem _ (List.mem_cons_of_mem _
      (List.mem_append_right _ (List.mem_append_left _ (List.mem_map.mpr
        ⟨L, by simpa using hL, ?_⟩))))
    rw [iterCeilDiv_eq _ _ hw L]

/-- C6 (witness): the kernel-set contract instantiated at the engine built
from a 10-element value buffer and 4-element count buffer at width 2. -/
theorem claim_C6_witness :
    GpuCountingSortModule.new vbW8 cbW8 2 = .ok mW8 ∧
    KernelSetSpec cbW8 2 mW8 := by
  have h : GpuCountingSortModule.new vbW8 cbW8 2 = .ok mW8 := by
    simp [GpuCountingSortModule.new, vbW8, cbW8, mW8, sidW8, usageStorage,
      usageStorageDst, usageStorageSrc, scan_then_propagate_level_count,
      levelCountLoop, List.range_succ]
  exact ⟨h, claim_C6 vbW8 cbW8 2 mW8 h⟩

/-- C10 (confirmed): `dispatch_work` uses its count-buffer argument only for
the initial clear; the rest of the recording is a function of the module
alone, every buffer it binds is a construction-time buffer, and the stage
events after the head clear do not depend on the argument buffer. -/
theorem claim_C10 (values_buffer count_buffer : Buffer) (workgroup_size : Nat)
    (m : GpuCountingSortModule)
    (hm : GpuCountingSortModule.new values_buffer count_buffer workgroup_size
            = .ok m) :
    FrameSpec values_buffer count_buffer m := by
  have hev := dispatch_events_of_ok hm
  unfold StageOrderSpec at hev
  refine ⟨fun enc cb2 => dispatch_work_eq m enc cb2, dispatchTail_buffers hm,
    fun cb2 cb3 => ?_, fun cb2 => ?_⟩
  · rw [hev cb2, hev cb3]
    rfl
  · rw [hev cb2]
    rfl

/-- C10 (witness): the frame contract instantiated at the engine built from
a 10-element value buffer and 4-element count buffer at width 2. -/
theorem claim_C10_witness :
    GpuCountingSortModule.new vbW8 cbW8 2 = .ok mW8 ∧
    FrameSpec vbW8 cbW8 mW8 := by
  have h : GpuCountingSortModule.new vbW8 cbW8 2 = .ok mW8 := by
    simp [GpuCountingSortModule.new, vbW8, cbW8, mW8, sidW8, usageStorage,
      usageStorageDst, usageStorageSrc, scan_then_propagate_level_count,
      levelCountLoop, List.range_succ]
  exact ⟨h, claim_C10 vbW8 cbW8 2 mW8 h⟩

end OxydeSorting
